import Mathlib

/-!
Shallow embedding of the QueryPop backend (src/backend) streaming query
subsystem: the safety validator (safety_validator.py), the streaming query
runner (query_runner.py), the websocket runQuery handler (main.py), the
query executor (query_executor.py) and the SQL import manager / statement
splitter (import_manager.py).

Python strings are modelled as Lean `String`s; the Python helpers
`str.strip`, `str.split()` (whitespace split), `str.split('\n')`,
`' '.join`, `str.startswith` are re-implemented character-by-character so
that they evaluate inside the kernel.  Python `re` word-boundary matching
(the `\bWORD\b` patterns of the validator) is modelled by an explicit
word-boundary scan; `\w` is modelled as ASCII alphanumeric or underscore,
which is exact on the ASCII statements the claims are about.
-/

namespace QueryPop

/-- ASCII single quote character (code 39). -/
def squote : Char := Char.ofNat 39

/-- Python `str.strip` on a character list: whitespace dropped from both ends. -/
def stripChars (l : List Char) : List Char :=
  ((l.dropWhile Char.isWhitespace).reverse.dropWhile Char.isWhitespace).reverse

/-- Python `str.strip` on strings. -/
def pyStrip (s : String) : String := String.mk (stripChars s.toList)

/-- Python `str.split()` (no separator): split on whitespace runs, dropping
empty tokens.  `acc` holds the characters of the token being built, reversed. -/
def pySplitAux : List Char → List Char → List (List Char)
  | [], acc => if acc = [] then [] else [acc.reverse]
  | c :: cs, acc =>
    if c.isWhitespace then
      if acc = [] then pySplitAux cs [] else acc.reverse :: pySplitAux cs []
    else pySplitAux cs (c :: acc)

/-- Python `str.split()` on strings. -/
def pySplit (s : String) : List String :=
  (pySplitAux s.toList []).map String.mk

/-- Python `str.upper()`: ASCII upper-casing character by character. -/
def pyUpper (s : String) : String := String.mk (s.toList.map Char.toUpper)

/-- Python `'\n'.split` style line splitting (`str.split('\n')`): every
newline is a separator and empty pieces are kept. -/
def splitLinesChars : List Char → List (List Char)
  | [] => [[]]
  | c :: cs =>
    if c = '\n' then [] :: splitLinesChars cs
    else
      match splitLinesChars cs with
      | [] => [[c]]
      | l :: ls => (c :: l) :: ls

/-- Python `sql_content.split('\n')` on strings. -/
def pyLines (s : String) : List String :=
  (splitLinesChars s.toList).map String.mk

/-- Python `' '.join` on a list of strings. -/
def joinSp : List String → String
  | [] => ""
  | [s] => s
  | s :: ss => s ++ " " ++ joinSp ss

/-- Python `s.startswith(p)` on strings. -/
def pyStartsWith (s p : String) : Bool :=
  s.toList.take p.toList.length = p.toList

/-- Python regex `\w`: ASCII letter, digit or underscore (ASCII fragment of
`re`'s default word-character class, exact on the inputs in question). -/
def isWordChar (c : Char) : Bool := c.isAlphanum || c = '_'

/-- Does the literal pattern `w` occur in `s` at position `i` with a regex
word boundary (`\b`) on both sides?  (The first and last characters of every
pattern used below are word characters.) -/
def wordAt (s w : List Char) (i : Nat) : Bool :=
  decide ((s.drop i).take w.length = w)
    && (i = 0 || !isWordChar (s.getD (i - 1) ' '))
    && (match s.drop (i + w.length) with
        | [] => true
        | d :: _ => !isWordChar d)

/-- Does the literal pattern `w` occur anywhere in `s` delimited by word
boundaries?  This is `re.search` of the validator's `\b...\b` patterns on a
whitespace-collapsed string (where `\s+` inside a pattern can only match one
single space, written as a space in `w`). -/
def containsWordL (s w : List Char) : Bool :=
  (List.range (s.length + 1)).any (wordAt s w)

/-- String version of `containsWordL`. -/
def containsWord (s w : String) : Bool := containsWordL s.toList w.toList

namespace SafetyValidator

/-- safety_validator.py line 8: the allowed leading verbs. -/
def ALLOWED_VERBS : List String := ["SELECT", "WITH", "EXPLAIN", "SHOW", "DESCRIBE"]

/-- safety_validator.py lines 11-18: the forbidden keyword patterns.  Each
entry is the literal text the `\b...\b` regex matches on the normalized
(upper-cased, whitespace-collapsed) statement, paired with the pattern's
display string used in the rejection reason (`\s+` collapses to one space on
the normalized form). -/
def FORBIDDEN_KEYWORDS : List (String × String) :=
  [("DROP", "\\bDROP\\b"), ("DELETE", "\\bDELETE\\b"), ("INSERT", "\\bINSERT\\b"),
   ("UPDATE", "\\bUPDATE\\b"), ("ALTER", "\\bALTER\\b"), ("TRUNCATE", "\\bTRUNCATE\\b"),
   ("REPLACE", "\\bREPLACE\\b"), ("CREATE", "\\bCREATE\\b"), ("GRANT", "\\bGRANT\\b"),
   ("REVOKE", "\\bREVOKE\\b"), ("LOCK", "\\bLOCK\\b"), ("UNLOCK", "\\bUNLOCK\\b"),
   ("LOAD_FILE", "\\bLOAD_FILE\\b"), ("INTO OUTFILE", "\\bINTO\\s+OUTFILE\\b"),
   ("INTO DUMPFILE", "\\bINTO\\s+DUMPFILE\\b"), ("EXECUTE", "\\bEXECUTE\\b"),
   ("PREPARE", "\\bPREPARE\\b"), ("DEALLOCATE", "\\bDEALLOCATE\\b")]

/-- safety_validator.py lines 20-46, `SafetyValidator.validate`:
returns the pair `(is_safe, reason)`.
Line 25: `if not sql_query or not sql_query.strip()` fails closed;
line 32: `normalized = ' '.join(sql_query.upper().split())`;
lines 35-38: first forbidden pattern found anywhere in `normalized` rejects;
lines 41-44: the first token of `normalized` must be an allowed verb. -/
def validate (sql_query : String) : Bool × String :=
  if sql_query = "" ∨ pyStrip sql_query = "" then
    (false, "Empty query")
  else
    let normalized := joinSp (pySplit (pyUpper sql_query))
    match FORBIDDEN_KEYWORDS.find? (fun p => containsWord normalized p.1) with
    | some p => (false, "Query contains forbidden keyword matching: " ++ p.2)
    | none =>
      let first_word := (pySplit normalized).headD ""
      if ALLOWED_VERBS.contains first_word then (true, "Safe")
      else (false, "Query must start with SELECT or other read-only statement")

end SafetyValidator

namespace QueryRunner

/-- Elements yielded by `run_sql_streaming` (query_runner.py lines 70-76 and
82-88): a `chunk` dict with the column names and one batch of rows, or the
final `done` dict.  Rows are opaque (`α`); only the `totalRows` field of the
done stats is modelled — `elapsedMs` is wall-clock time, outside the
embedding. -/
inductive Msg (α : Type) where
  | chunk (columns : List String) (rows : List α) : Msg α
  | done (totalRows : Int) : Msg α
  deriving DecidableEq

/-- The SQLAlchemy result object of `conn.execute(text(sql))`:
whether it returns rows, its column names and rows (meaningful when
`returns_rows`), and the driver `rowcount` (meaningful otherwise; it may be
negative, hence `Int`). -/
structure ResultSet (α : Type) where
  returns_rows : Bool
  columns : List String
  rows : List α
  rowcount : Int
  deriving DecidableEq

/-- The database environment one `run_sql_streaming` call runs against:
the connector's `is_connected()` answer, the outcome of issuing the
statement (`Except.error` models `conn.execute` raising), and an optional
index of the `fetchmany` call that raises (`none` = fetching never raises).
Connecting itself (`engine.connect()`) is modelled as succeeding; its
failure would follow the same raising path as `execResult = .error`. -/
structure DBConn (α : Type) where
  is_connected : Bool
  execResult : Except String (ResultSet α)
  fetchFail : Option Nat

/-- What one invocation of the generator produces: the elements yielded, in
order, and the exception it raises after them, if any. -/
structure RunOutput (α : Type) where
  emitted : List (Msg α)
  error : Option String
  deriving DecidableEq

/-- Result of the fetch loop (query_runner.py lines 53-76): the chunk
elements yielded, the exception raised by a `fetchmany` call (if any), and
the final `row_count`. -/
structure FetchOut (α : Type) where
  msgs : List (Msg α)
  fetchError : Option String
  rowCount : Nat

/-- query_runner.py lines 53-76, the `while True` fetch loop.
`checkIdx` numbers the reads of `cancel_event` (the pre-execution check is
read 0, so the loop starts at 1); `fetchIdx` numbers the `fetchmany` calls.
Each pass: check the cancellation event (break if set), fetch up to `B`
rows (raising if this is the failing fetch), break if the batch is empty,
otherwise yield one chunk and accumulate `row_count`. -/
def fetchLoop {α : Type} (B : Nat) (cancel : Nat → Bool) (fetchFail : Option Nat)
    (cols : List String) (checkIdx fetchIdx rowCount : Nat) (remaining : List α) :
    FetchOut α :=
  if cancel checkIdx then ⟨[], none, rowCount⟩
  else if fetchFail = some fetchIdx then ⟨[], some "fetch failed", rowCount⟩
  else
    match h : remaining.take B with
    | [] => ⟨[], none, rowCount⟩
    | c :: cr =>
      let out := fetchLoop B cancel fetchFail cols (checkIdx + 1) (fetchIdx + 1)
        (rowCount + (c :: cr).length) (remaining.drop B)
      ⟨Msg.chunk cols (c :: cr) :: out.msgs, out.fetchError, out.rowCount⟩
termination_by remaining.length
decreasing_by
  have hB : B ≠ 0 := by
    intro hB0
    rw [hB0] at h
    simp at h
  have hr : remaining ≠ [] := by
    intro hr0
    rw [hr0] at h
    simp at h
  rw [List.length_drop]
  exact Nat.sub_lt (List.length_pos.mpr hr) (Nat.pos_of_ne_zero hB)

/-- query_runner.py lines 15-92, `QueryRunner.run_sql_streaming` as the
trace of one full consumption of the generator.  Line 25: not connected
raises before anything is yielded.  Line 39: if the cancellation event is
already set before execution, the generator returns with no output.
Line 44: issuing the statement may raise.  Lines 50-79: the rows branch
runs the fetch loop; the non-rows branch records `result.rowcount`.
Lines 82-88: exactly one `done` element is yielded after the loop, unless
an exception was raised (lines 90-92 re-raise). -/
def run_sql_streaming {α : Type} (db : DBConn α) (cancel : Nat → Bool) (batch_size : Nat) :
    RunOutput α :=
  if db.is_connected = false then ⟨[], some "Database not connected"⟩
  else if cancel 0 then ⟨[], none⟩
  else
    match db.execResult with
    | Except.error e => ⟨[], some e⟩
    | Except.ok result =>
      if result.returns_rows then
        let out := fetchLoop batch_size cancel db.fetchFail result.columns 1 0 0 result.rows
        match out.fetchError with
        | some e => ⟨out.msgs, some e⟩
        | none => ⟨out.msgs ++ [Msg.done (out.rowCount : Int)], none⟩
      else
        ⟨[Msg.done result.rowcount], none⟩

end QueryRunner

namespace Main

/-- Outbound websocket messages of main.py relevant to one query run
(`queryAccepted`, `queryProgress`, `queryRows`, `queryDone`, `queryError`);
the constant `queryId` field is left implicit. -/
inductive WsMsg (α : Type) where
  | queryAccepted : WsMsg α
  | queryProgress : WsMsg α
  | queryRows (columns : List String) (rows : List α) : WsMsg α
  | queryDone (totalRows : Int) : WsMsg α
  | queryError (message : String) : WsMsg α
  deriving DecidableEq

/-- main.py lines 100-202, `handle_run_query`: the statements on which
`query_runner.run_sql_streaming` is invoked for an inbound runQuery payload
carrying `sql`.  Lines 124-128 and 152-155 always forward the raw payload
statement; no call to `SafetyValidator.validate` occurs anywhere in
main.py. -/
def handle_run_query_runner_statements (sql : String) : List String := [sql]

/-- main.py lines 100-202, `handle_run_query`: the outbound message trace
for one runQuery request.  Lines 105-109 send queryAccepted, lines 118-121
send queryProgress, the thread target (lines 152-190) maps each generator
chunk to queryRows, the done element to queryDone, and a raised exception
to queryError.  The generator consumes the raw payload sql against the
database environment `db`; batch_size defaults to 100 (query_runner.py
line 19). -/
def handle_run_query {α : Type} (db : QueryRunner.DBConn α) (cancel : Nat → Bool)
    (sql : String) : List (WsMsg α) :=
  let out := QueryRunner.run_sql_streaming db cancel 100
  [WsMsg.queryAccepted, WsMsg.queryProgress]
    ++ out.emitted.map (fun m =>
        match m with
        | QueryRunner.Msg.chunk cols rows => WsMsg.queryRows cols rows
        | QueryRunner.Msg.done n => WsMsg.queryDone n)
    ++ (match out.error with
        | some e => [WsMsg.queryError e]
        | none => [])

end Main

namespace QueryExecutor

/-- The dict returned by db_connector.py `execute_query` (lines 136-172):
on `success`, columns, rows and `row_count` (`len(rows)` for SELECT-like
results, the driver `rowcount` otherwise, hence `Int`); on failure the
caught SQLAlchemy error text in `error`. -/
structure DBExecResult (α : Type) where
  success : Bool
  columns : List String
  rows : List α
  row_count : Int
  error : String

/-- One row inserted into `query_history` by `_log_query`
(query_executor.py lines 122-134); the wall-clock `execution_time_ms`
column is outside the embedding. -/
structure LogEntry where
  question : String
  sql : String
  status : String
  row_count : Int
  error_message : Option String
  deriving DecidableEq

/-- The dict `execute_and_log` returns: the blocked dict of line 51, the
success dict of lines 100-108, or the failure dict of lines 111/117. -/
inductive ExecResult (α : Type) where
  | blocked (error : String) : ExecResult α
  | ok (rows : List α) (columns : List String) (row_count : Int)
      (affected_table : Option String) (primary_keys : List String) : ExecResult α
  | failed (error : String) : ExecResult α

/-- Everything observable from one `execute_and_log` call: the returned
dict, the `query_history` rows written, and the statements passed to
`db_connector.execute_query`. -/
structure ExecOutcome (α : Type) where
  result : ExecResult α
  logs : List LogEntry
  dbCalls : List String

/-- query_executor.py lines 35-120, `QueryExecutor.execute_and_log`.
`dbExec` is the database collaborator `db_connector.execute_query`
(`Except.error` models it raising); `detectMeta` abstracts the
inspector-dependent affected-table/primary-key detection of lines 73-98,
which touches the live database.  Lines 47-51: a statement the validator
rejects is logged with status "blocked" and returned as a failure dict
without calling `dbExec`.  Lines 54-120: otherwise the statement is
executed and the `finally` block logs status "success" (with the row
count) or "error". -/
def execute_and_log {α : Type} (dbExec : String → Except String (DBExecResult α))
    (detectMeta : String → Option String × List String)
    (sql_query question : String) : ExecOutcome α :=
  let v := SafetyValidator.validate sql_query
  if v.1 = false then
    let error_msg := "Safety Warning: " ++ v.2
    ⟨ExecResult.blocked error_msg,
     [⟨question, sql_query, "blocked", 0, some error_msg⟩], []⟩
  else
    match dbExec sql_query with
    | Except.error e =>
      ⟨ExecResult.failed e, [⟨question, sql_query, "error", 0, some e⟩], [sql_query]⟩
    | Except.ok r =>
      if r.success then
        let meta := detectMeta sql_query
        ⟨ExecResult.ok r.rows r.columns r.row_count meta.1 meta.2,
         [⟨question, sql_query, "success", r.row_count, none⟩], [sql_query]⟩
      else
        ⟨ExecResult.failed r.error,
         [⟨question, sql_query, "error", 0, some r.error⟩], [sql_query]⟩

end QueryExecutor

namespace ImportManager

/-- The mutable state of `_parse_sql_statements` (import_manager.py lines
60-63) across lines: completed `statements`, the pieces of the statement
being accumulated (`current_statement`), and the quoted-literal state
(`in_string`, `string_char`). -/
structure SplitState where
  statements : List String
  current : List String
  in_string : Bool
  string_char : Option Char
  deriving DecidableEq

/-- import_manager.py lines 77-82: the quoted-literal tracking for one
character.  A quote character (`'` or `"`) that is not immediately preceded
by an escape backslash opens the literal state when it is closed, and
closes it when it matches the opening quote character.  `seg` holds the
characters scanned so far in the current segment, reversed, so `seg = []`
is exactly Python's `i == 0` and `seg.headD` is `line[i-1]`. -/
def quoteStep (c : Char) (seg : List Char) (st : SplitState) : SplitState :=
  if (c = squote ∨ c = '"') ∧ (seg = [] ∨ seg.headD ' ' ≠ '\\') then
    if st.in_string = false then
      { st with in_string := true, string_char := some c }
    else if st.string_char = some c then
      { st with in_string := false }
    else st
  else st

/-- import_manager.py lines 72-95, the character scan of one line (the
`while i < len(line)` loop plus the trailing `if line:` append).
After a terminator Python re-enters the loop on `line[i+1:].strip()`; the
`skip` flag reproduces that strip by discarding leading whitespace (the
trailing strip is a no-op because the enclosing line is already stripped).
Lines 85-90: a `;` outside a quoted literal closes the current statement —
`line[:i+1]` joins `current_statement` and the joined text is appended to
`statements`. -/
def scanLine : List Char → Bool → List Char → SplitState → SplitState
  | [], _, seg, st =>
    if seg = [] then st
    else { st with current := st.current ++ [String.mk seg.reverse] }
  | c :: cs, skip, seg, st =>
    if skip ∧ c.isWhitespace then
      scanLine cs true [] st
    else
      if c = ';' ∧ (quoteStep c seg st).in_string = false then
        scanLine cs true []
          { quoteStep c seg st with
            statements := (quoteStep c seg st).statements
              ++ [joinSp ((quoteStep c seg st).current
                    ++ [String.mk (seg.reverse ++ [';'])])],
            current := [] }
      else
        scanLine cs false (c :: seg) (quoteStep c seg st)

/-- import_manager.py lines 65-69 plus the per-line scan: strip the line,
skip it when empty or a `--` comment, otherwise scan it. -/
def lineStep (st : SplitState) (rawLine : String) : SplitState :=
  if pyStrip rawLine = "" ∨ pyStartsWith (pyStrip rawLine) ("--") then st
  else scanLine (pyStrip rawLine).toList false [] st

/-- import_manager.py lines 58-103, `ImportManager._parse_sql_statements`:
split a SQL blob into individual statements.  Lines 65-95: each line is
processed by `lineStep` over shared state; lines 98-101: a non-empty
trailing accumulation becomes one final statement. -/
def _parse_sql_statements (sql_content : String) : List String :=
  let fin := (pyLines sql_content).foldl lineStep ⟨[], [], false, none⟩
  if fin.current ≠ [] then
    if pyStrip (joinSp fin.current) ≠ ""
    then fin.statements ++ [pyStrip (joinSp fin.current)]
    else fin.statements
  else fin.statements

/-- The dict `import_sql` returns.  In Python the `warnings` and
`warning_count` keys are present only when at least one statement failed;
that is modelled by the defaults `[]` and `0`, and `error` is the key of
the not-connected dict of line 17. -/
structure ImportResult where
  success : Bool
  statements_executed : Nat
  message : String
  error : Option String
  warnings : List String
  warning_count : Nat
  deriving DecidableEq

/-- Python `stmt[:50]`. -/
def pyTake50 (s : String) : String := String.mk (s.toList.take 50)

/-- import_manager.py lines 27-38, the body of the statement loop: strip
the statement, skip it when empty or a comment, otherwise execute it,
incrementing `executed` on success and appending the error message to
`errors` on failure (the loop never aborts). -/
def importStep (execStmt : String → Except String Unit)
    (acc : Nat × List String) (stmt0 : String) : Nat × List String :=
  if pyStrip stmt0 = "" ∨ pyStartsWith (pyStrip stmt0) ("--") then acc
  else
    match execStmt (pyStrip stmt0) with
    | Except.ok _ => (acc.1 + 1, acc.2)
    | Except.error e =>
      (acc.1, acc.2 ++ ["Error executing: " ++ pyTake50 (pyStrip stmt0) ++ "... - " ++ e])

/-- import_manager.py lines 14-56, `ImportManager.import_sql`.  `engineOk`
is the `self.db_connector.engine` truthiness of line 16; `execStmt` is the
database collaborator `conn.execute(text(stmt))` (`Except.error e` models
it raising with message `e`).  Lines 27-38 run `importStep` over every
parsed statement; lines 42-52: the result reports `success = True`, the
first 10 error messages and the total error count.  `conn.commit()` (line
40) is modelled as succeeding; its failure would take the outer exception
path, as would `engine.connect()` failing. -/
def import_sql (engineOk : Bool) (execStmt : String → Except String Unit)
    (sql_content : String) : ImportResult :=
  if engineOk = false then
    ⟨false, 0, "", some "Not connected to database", [], 0⟩
  else
    let res := (_parse_sql_statements sql_content).foldl (importStep execStmt) (0, [])
    ⟨true, res.1, "Successfully executed " ++ toString res.1 ++ " statements",
     none, res.2.take 10, res.2.length⟩

/-- The statements the import loop actually attempts to execute (stripped,
with empty and comment entries skipped) — the argument list of the
`conn.execute` calls. -/
def importAttempted : List String → List String
  | [] => []
  | s0 :: rest =>
    if pyStrip s0 = "" ∨ pyStartsWith (pyStrip s0) ("--") then importAttempted rest
    else pyStrip s0 :: importAttempted rest

/-- Does executing this statement raise? -/
def execRaises (execStmt : String → Except String Unit) (s : String) : Bool :=
  match execStmt s with
  | Except.error _ => true
  | Except.ok _ => false

/-- The warning messages the import loop collects, one per attempted
statement whose execution raises, in loop order. -/
def importErrors (execStmt : String → Except String Unit) : List String → List String
  | [] => []
  | s0 :: rest =>
    if pyStrip s0 = "" ∨ pyStartsWith (pyStrip s0) ("--") then importErrors execStmt rest
    else
      match execStmt (pyStrip s0) with
      | Except.ok _ => importErrors execStmt rest
      | Except.error e =>
        ("Error executing: " ++ pyTake50 (pyStrip s0) ++ "... - " ++ e)
          :: importErrors execStmt rest

end ImportManager

/-- Reference chunking: the row batches a clean (uncancelled, error-free)
fetch loop produces — successive `take B` groups of the row list. -/
def chunksOf {α : Type} (B : Nat) (l : List α) : List (List α) :=
  match h : l.take B with
  | [] => []
  | c :: cr => (c :: cr) :: chunksOf B (l.drop B)
termination_by l.length
decreasing_by
  have hB : B ≠ 0 := by
    intro hB0
    rw [hB0] at h
    simp at h
  have hr : l ≠ [] := by
    intro hr0
    rw [hr0] at h
    simp at h
  rw [List.length_drop]
  exact Nat.sub_lt (List.length_pos.mpr hr) (Nat.pos_of_ne_zero hB)

/-! Helper lemmas. -/

theorem pyStrip_eq_empty_of_all_ws {s : String} (h : ∀ c ∈ s.toList, c.isWhitespace) :
    pyStrip s = "" := by
  unfold pyStrip stripChars
  rw [List.dropWhile_eq_nil_iff.mpr h]
  rfl

theorem chunksOf_nil {α : Type} (B : Nat) : chunksOf B ([] : List α) = [] := by
  unfold chunksOf
  split
  · rfl
  · next c cr ht => simp at ht

theorem chunksOf_cons_of_take {α : Type} {B : Nat} {l : List α} {c : α} {cr : List α}
    (htake : l.take B = c :: cr) :
    chunksOf B l = (c :: cr) :: chunksOf B (l.drop B) := by
  conv_lhs => rw [chunksOf]
  split
  · next ht =>
    rw [htake] at ht
    simp at ht
  · next c2 cr2 ht =>
    rw [htake] at ht
    cases ht
    rfl

theorem take_cons_facts {α : Type} {B : Nat} {l : List α} {c : α} {cr : List α}
    (htake : l.take B = c :: cr) : l ≠ [] ∧ 0 < B := by
  constructor
  · intro h0
    rw [h0] at htake
    simp at htake
  · rcases Nat.eq_zero_or_pos B with h0 | h0
    · rw [h0] at htake
      simp at htake
    · exact h0

theorem chunksOf_sum {α : Type} (B : Nat) (hB : 0 < B) (l : List α) :
    ((chunksOf B l).map List.length).sum = l.length := by
  have H : ∀ (n : Nat) (l : List α), l.length ≤ n →
      ((chunksOf B l).map List.length).sum = l.length := by
    intro n
    induction n with
    | zero =>
      intro l hl
      have hnil : l = [] := List.eq_nil_of_length_eq_zero (Nat.le_zero.mp hl)
      subst hnil
      rw [chunksOf_nil]
      rfl
    | succ n ih =>
      intro l hl
      rcases htake : l.take B with _ | ⟨c, cr⟩
      · rcases List.take_eq_nil_iff.mp htake with hB0 | hnil
        · omega
        · subst hnil
          rw [chunksOf_nil]
          rfl
      · obtain ⟨hne, -⟩ := take_cons_facts htake
        have hpos := List.length_pos.mpr hne
        have hlen : (l.drop B).length ≤ n := by
          rw [List.length_drop]
          omega
        rw [chunksOf_cons_of_take htake]
        simp only [List.map_cons, List.sum_cons, ih (l.drop B) hlen]
        have h3 : (c :: cr).length = (l.take B).length := by rw [htake]
        rw [h3, List.length_take, List.length_drop]
        omega
  exact H l.length l (Nat.le_refl _)

theorem chunksOf_length {α : Type} (B : Nat) (hB : 0 < B) (l : List α) :
    (chunksOf B l).length = (l.length + B - 1) / B := by
  have H : ∀ (n : Nat) (l : List α), l.length ≤ n →
      (chunksOf B l).length = (l.length + B - 1) / B := by
    intro n
    induction n with
    | zero =>
      intro l hl
      have hnil : l = [] := List.eq_nil_of_length_eq_zero (Nat.le_zero.mp hl)
      subst hnil
      rw [chunksOf_nil]
      simp only [List.length_nil]
      rw [Nat.div_eq_of_lt (by omega)]
    | succ n ih =>
      intro l hl
      rcases htake : l.take B with _ | ⟨c, cr⟩
      · rcases List.take_eq_nil_iff.mp htake with hB0 | hnil
        · omega
        · subst hnil
          rw [chunksOf_nil]
          simp only [List.length_nil]
          rw [Nat.div_eq_of_lt (by omega)]
      · obtain ⟨hne, -⟩ := take_cons_facts htake
        have hpos := List.length_pos.mpr hne
        have hlen : (l.drop B).length ≤ n := by
          rw [List.length_drop]
          omega
        rw [chunksOf_cons_of_take htake]
        simp only [List.length_cons, ih (l.drop B) hlen, List.length_drop]
        by_cases hcase : B ≤ l.length
        · have h1 : l.length - B + B - 1 = l.length - 1 := by omega
          have h2 : l.length + B - 1 = (l.length - 1) + B := by omega
          rw [h1, h2, Nat.add_div_right _ hB]
        · have h1 : l.length - B + B - 1 = B - 1 := by omega
          have h2 : l.length + B - 1 = (l.length - 1) + B := by omega
          rw [h1, h2, Nat.add_div_right _ hB,
            Nat.div_eq_of_lt (by omega), Nat.div_eq_of_lt (by omega)]
  exact H l.length l (Nat.le_refl _)

theorem fetchLoop_clean {α : Type} (B : Nat) (hB : 0 < B) (cancel : Nat → Bool)
    (hc : ∀ n, cancel n = false) (cols : List String) (l : List α) (ci fi rc : Nat) :
    QueryRunner.fetchLoop B cancel none cols ci fi rc l
      = ⟨(chunksOf B l).map (QueryRunner.Msg.chunk cols), none, rc + l.length⟩ := by
  have H : ∀ (n : Nat) (l : List α) (ci fi rc : Nat), l.length ≤ n →
      QueryRunner.fetchLoop B cancel none cols ci fi rc l
        = ⟨(chunksOf B l).map (QueryRunner.Msg.chunk cols), none, rc + l.length⟩ := by
    intro n
    induction n with
    | zero =>
      intro l ci fi rc hl
      have hnil : l = [] := List.eq_nil_of_length_eq_zero (Nat.le_zero.mp hl)
      subst hnil
      rw [chunksOf_nil]
      unfold QueryRunner.fetchLoop
      split
      · next hcancel => simp [hc ci] at hcancel
      · split
        · next hfe => simp at hfe
        · split
          · next htake => simp
          · next c cr htake => simp at htake
    | succ n ih =>
      intro l ci fi rc hl
      unfold QueryRunner.fetchLoop
      split
      · next hcancel => simp [hc ci] at hcancel
      · split
        · next hfe => simp at hfe
        · split
          · next htake =>
            rcases List.take_eq_nil_iff.mp htake with hB0 | hnil
            · omega
            · subst hnil
              rw [chunksOf_nil]
              simp
          · next c cr htake =>
            obtain ⟨hne, -⟩ := take_cons_facts htake
            have hpos := List.length_pos.mpr hne
            have hlen : (l.drop B).length ≤ n := by
              rw [List.length_drop]
              omega
            rw [ih (l.drop B) (ci + 1) (fi + 1) (rc + (c :: cr).length) hlen,
              chunksOf_cons_of_take htake]
            simp only [List.map_cons]
            have h3 : (c :: cr).length = (l.take B).length := by rw [htake]
            have h4 : rc + (c :: cr).length + (l.drop B).length = rc + l.length := by
              rw [h3, List.length_take, List.length_drop]
              omega
            rw [h4]
  exact H l.length l ci fi rc (Nat.le_refl _)

theorem fetchLoop_no_done {α : Type} (B : Nat) (cancel : Nat → Bool)
    (fetchFail : Option Nat) (cols : List String) (l : List α) (ci fi rc : Nat) (n : Int) :
    QueryRunner.Msg.done n ∉ (QueryRunner.fetchLoop B cancel fetchFail cols ci fi rc l).msgs := by
  have H : ∀ (k : Nat) (l : List α) (ci fi rc : Nat), l.length ≤ k →
      QueryRunner.Msg.done n ∉ (QueryRunner.fetchLoop B cancel fetchFail cols ci fi rc l).msgs := by
    intro k
    induction k with
    | zero =>
      intro l ci fi rc hl
      have hnil : l = [] := List.eq_nil_of_length_eq_zero (Nat.le_zero.mp hl)
      subst hnil
      unfold QueryRunner.fetchLoop
      split
      · simp
      · split
        · simp
        · split
          · next htake => simp
          · next c cr htake => simp at htake
    | succ k ih =>
      intro l ci fi rc hl
      unfold QueryRunner.fetchLoop
      split
      · simp
      · split
        · simp
        · split
          · simp
          · next c cr htake =>
            have hne : l ≠ [] := by
              intro h0
              rw [h0] at htake
              simp at htake
            have hpos := List.length_pos.mpr hne
            have hlen : (l.drop B).length ≤ k := by
              rw [List.length_drop]
              have hB : B ≠ 0 := by
                intro hB0
                rw [hB0] at htake
                simp at htake
              omega
            have hrec := ih (l.drop B) (ci + 1) (fi + 1) (rc + (c :: cr).length) hlen
            simp only [List.mem_cons, not_or]
            exact ⟨by simp, hrec⟩
  exact H l.length l ci fi rc (Nat.le_refl _)

theorem joinSp_cons_ne {s : String} {l : List String} (h : l ≠ []) :
    joinSp (s :: l) = s ++ " " ++ joinSp l := by
  cases l with
  | nil => exact absurd rfl h
  | cons a as => rfl

theorem joinSp_append_singleton_ne {p : String} (hp : p ≠ "") :
    ∀ l : List String, joinSp (l ++ [p]) ≠ "" := by
  intro l
  induction l with
  | nil => simpa [joinSp] using hp
  | cons s ss ih =>
    rw [List.cons_append, joinSp_cons_ne (by simp)]
    intro hcontra
    have hlen := congrArg String.length hcontra
    rw [String.length_append, String.length_append] at hlen
    have h1 : (" ").length = 1 := by decide
    have h2 : ("" : String).length = 0 := by decide
    omega

theorem mk_append_semi_ne (xs : List Char) : String.mk (xs ++ [';']) ≠ "" := by
  intro h
  have hlen := congrArg String.length h
  have h1 : (String.mk (xs ++ [';'])).length = xs.length + 1 := by
    simp [String.length]
  have h2 : ("" : String).length = 0 := by decide
  omega

theorem quoteStep_fields (c : Char) (seg : List Char) (st : ImportManager.SplitState) :
    (ImportManager.quoteStep c seg st).statements = st.statements
    ∧ (ImportManager.quoteStep c seg st).current = st.current := by
  unfold ImportManager.quoteStep
  split_ifs <;> exact ⟨rfl, rfl⟩

theorem scanLine_statements_ne :
    ∀ (cs : List Char) (skip : Bool) (seg : List Char) (st : ImportManager.SplitState),
      (∀ s ∈ st.statements, s ≠ "") →
      ∀ s ∈ (ImportManager.scanLine cs skip seg st).statements, s ≠ "" := by
  intro cs
  induction cs with
  | nil =>
    intro skip seg st hst s hs
    simp only [ImportManager.scanLine] at hs
    split at hs
    · exact hst s hs
    · exact hst s hs
  | cons c cs ih =>
    intro skip seg st hst s hs
    simp only [ImportManager.scanLine] at hs
    split at hs
    · exact ih true [] st hst s hs
    · split at hs
      · refine ih true [] _ ?_ s hs
        intro t ht
        rcases List.mem_append.mp ht with h1 | h2
        · rw [(quoteStep_fields c seg st).1] at h1
          exact hst t h1
        · rw [List.mem_singleton] at h2
          subst h2
          exact joinSp_append_singleton_ne (mk_append_semi_ne seg.reverse) _
      · refine ih false (c :: seg) _ ?_ s hs
        intro t ht
        rw [(quoteStep_fields c seg st).1] at ht
        exact hst t ht

theorem foldl_lineStep_statements_ne (lines : List String) :
    ∀ st : ImportManager.SplitState, (∀ s ∈ st.statements, s ≠ "") →
      ∀ s ∈ (lines.foldl ImportManager.lineStep st).statements, s ≠ "" := by
  induction lines with
  | nil =>
    intro st hst
    simpa using hst
  | cons l ls ih =>
    intro st hst
    rw [List.foldl_cons]
    refine ih _ ?_
    unfold ImportManager.lineStep
    split
    · exact hst
    · exact scanLine_statements_ne _ false [] st hst

theorem foldl_lineStep_skip :
    ∀ lines : List String,
      (∀ line ∈ lines, pyStrip line = "" ∨ pyStartsWith (pyStrip line) ("--")) →
      ∀ st : ImportManager.SplitState, lines.foldl ImportManager.lineStep st = st := by
  intro lines
  induction lines with
  | nil =>
    intro _ st
    rfl
  | cons l ls ih =>
    intro h st
    rw [List.foldl_cons]
    have h1 : ImportManager.lineStep st l = st := by
      unfold ImportManager.lineStep
      rw [if_pos (h l (List.mem_cons_self l ls))]
    rw [h1]
    exact ih (fun line hl => h line (List.mem_cons_of_mem l hl)) st

theorem importStep_foldl (execStmt : String → Except String Unit) :
    ∀ (stmts : List String) (n : Nat) (es : List String),
      stmts.foldl (ImportManager.importStep execStmt) (n, es)
        = (n + (ImportManager.importAttempted stmts).countP
              (fun s => !(ImportManager.execRaises execStmt s)),
           es ++ ImportManager.importErrors execStmt stmts) := by
  intro stmts
  induction stmts with
  | nil =>
    intro n es
    simp [ImportManager.importAttempted, ImportManager.importErrors]
  | cons s0 rest ih =>
    intro n es
    rw [List.foldl_cons]
    by_cases hskip : pyStrip s0 = "" ∨ pyStartsWith (pyStrip s0) ("--")
    · have h1 : ImportManager.importAttempted (s0 :: rest)
          = ImportManager.importAttempted rest := by
        simp only [ImportManager.importAttempted]
        rw [if_pos hskip]
      have h2 : ImportManager.importErrors execStmt (s0 :: rest)
          = ImportManager.importErrors execStmt rest := by
        simp only [ImportManager.importErrors]
        rw [if_pos hskip]
      have h3 : ImportManager.importStep execStmt (n, es) s0 = (n, es) := by
        simp only [ImportManager.importStep]
        rw [if_pos hskip]
      rw [h3, ih n es, h1, h2]
    · have h1 : ImportManager.importAttempted (s0 :: rest)
          = pyStrip s0 :: ImportManager.importAttempted rest := by
        simp only [ImportManager.importAttempted]
        rw [if_neg hskip]
      rcases hex : execStmt (pyStrip s0) with e | u
      · have h2 : ImportManager.importErrors execStmt (s0 :: rest)
            = ("Error executing: " ++ ImportManager.pyTake50 (pyStrip s0) ++ "... - " ++ e)
              :: ImportManager.importErrors execStmt rest := by
          simp only [ImportManager.importErrors]
          rw [if_neg hskip, hex]
        have h3 : ImportManager.importStep execStmt (n, es) s0
            = (n, es ++ ["Error executing: "
                  ++ ImportManager.pyTake50 (pyStrip s0) ++ "... - " ++ e]) := by
          simp only [ImportManager.importStep]
          rw [if_neg hskip, hex]
        have h4 : ImportManager.execRaises execStmt (pyStrip s0) = true := by
          simp only [ImportManager.execRaises]
          rw [hex]
        rw [h3, ih, h1, h2, List.countP_cons]
        simp [h4]
      · have h2 : ImportManager.importErrors execStmt (s0 :: rest)
            = ImportManager.importErrors execStmt rest := by
          simp only [ImportManager.importErrors]
          rw [if_neg hskip, hex]
        have h3 : ImportManager.importStep execStmt (n, es) s0 = (n + 1, es) := by
          simp only [ImportManager.importStep]
          rw [if_neg hskip, hex]
        have h4 : ImportManager.execRaises execStmt (pyStrip s0) = false := by
          simp only [ImportManager.execRaises]
          rw [hex]
        rw [h3, ih, h1, h2, List.countP_cons]
        simp [h4]
        omega

theorem importErrors_length (execStmt : String → Except String Unit) :
    ∀ stmts : List String,
      (ImportManager.importErrors execStmt stmts).length
        = (ImportManager.importAttempted stmts).countP
            (ImportManager.execRaises execStmt) := by
  intro stmts
  induction stmts with
  | nil => rfl
  | cons s0 rest ih =>
    by_cases hskip : pyStrip s0 = "" ∨ pyStartsWith (pyStrip s0) ("--")
    · unfold ImportManager.importErrors ImportManager.importAttempted
      rw [if_pos hskip, if_pos hskip]
      exact ih
    · unfold ImportManager.importErrors ImportManager.importAttempted
      rw [if_neg hskip, if_neg hskip]
      rcases hex : execStmt (pyStrip s0) with e | u
      · have h4 : ImportManager.execRaises execStmt (pyStrip s0) = true := by
          simp only [ImportManager.execRaises]
          rw [hex]
        rw [List.countP_cons]
        simp [h4, ih]
      · have h4 : ImportManager.execRaises execStmt (pyStrip s0) = false := by
          simp only [ImportManager.execRaises]
          rw [hex]
        rw [List.countP_cons]
        simp [h4, ih]

/-! Claim theorems. -/

/-- C3: `SafetyValidator.validate s` returns `allowed = true` iff `s` is
non-empty after trimming, no forbidden keyword occurs as a whole word
anywhere in the case-folded whitespace-collapsed form of `s`, and the first
token of that normalized form is one of the allowed verbs.  In particular
`validate("SELECT * FROM users;")` is allowed, `validate("DROP TABLE
users;")` is rejected with a reason mentioning DROP (the reason is the
pattern display string, which contains the word DROP), and
`validate("select * from dropdown_items")` is allowed: the whole-word match
does not fire on the identifier `dropdown_items`. -/
theorem validate_allowed_characterization :
    (∀ s : String,
      (SafetyValidator.validate s).1 = true ↔
        (pyStrip s ≠ ""
          ∧ (∀ p ∈ SafetyValidator.FORBIDDEN_KEYWORDS,
              containsWord (joinSp (pySplit (pyUpper s))) p.1 = false)
          ∧ (pySplit (joinSp (pySplit (pyUpper s)))).headD "" ∈ SafetyValidator.ALLOWED_VERBS))
    ∧ (SafetyValidator.validate ("SELECT * FROM users;")).1 = true
    ∧ (SafetyValidator.validate ("DROP TABLE users;")).1 = false
    ∧ (SafetyValidator.validate ("DROP TABLE users;")).2
        = "Query contains forbidden keyword matching: \\bDROP\\b"
    ∧ (SafetyValidator.validate ("select * from dropdown_items")).1 = true := by
  refine ⟨?_, by decide, by decide, by decide, by decide⟩
  intro s
  unfold SafetyValidator.validate
  by_cases h0 : s = "" ∨ pyStrip s = ""
  · rw [if_pos h0]
    have hps : pyStrip s = "" := by
      rcases h0 with h | h
      · rw [h]; rfl
      · exact h
    simp [hps]
  · rw [if_neg h0]
    push_neg at h0
    rcases hf : SafetyValidator.FORBIDDEN_KEYWORDS.find?
        (fun p => containsWord (joinSp (pySplit (pyUpper s))) p.1) with _ | p
    · simp only [hf]
      have hall := List.find?_eq_none.mp hf
      constructor
      · intro ht
        refine ⟨h0.2, ?_, ?_⟩
        · intro p hp
          simpa using hall p hp
        · by_cases hc : SafetyValidator.ALLOWED_VERBS.contains
              ((pySplit (joinSp (pySplit (pyUpper s)))).headD "") = true
          · exact List.elem_iff.mp hc
          · rw [if_neg hc] at ht
            simp at ht
      · rintro ⟨-, -, hmem⟩
        rw [if_pos (List.elem_iff.mpr hmem)]
    · simp only [hf]
      constructor
      · intro ht
        simp at ht
      · rintro ⟨-, hforb, -⟩
        have hmem := List.mem_of_find?_eq_some hf
        have hprop := List.find?_some hf
        rw [hforb p hmem] at hprop
        simp at hprop

/-- C4: the statement splitter treats `;` as a terminator only inside no
quoted literal and emits non-empty trailing text with no final `;` as one
final statement: splitting `INSERT INTO t VALUES ('a;b');` yields exactly
that one statement (the `;` inside the literal does not terminate), and
splitting `SELECT 1; SELECT 2` yields exactly two statements, the second
lacking a trailing terminator. -/
theorem parse_sql_statements_examples :
    ImportManager._parse_sql_statements ("INSERT INTO t VALUES (\x27a;b\x27);")
      = ["INSERT INTO t VALUES (\x27a;b\x27);"]
    ∧ ImportManager._parse_sql_statements ("SELECT 1; SELECT 2")
      = ["SELECT 1;", "SELECT 2"] := by decide

/-- C5 (counterexample): the code rejects a whitespace-only statement with
reason "Empty query" (capital E, safety_validator.py line 26), which is not
the exact string "empty query" the claim states. -/
theorem validate_empty_reason_capitalized :
    SafetyValidator.validate ("   ") = (false, "Empty query")
    ∧ ("Empty query" : String) ≠ ("empty query") := by decide

/-- C5 (amended): for every statement that is empty or consists only of
whitespace characters, `SafetyValidator.validate` returns `allowed = false`
with reason exactly "Empty query". -/
theorem validate_whitespace_only (s : String) (h : ∀ c ∈ s.toList, c.isWhitespace) :
    SafetyValidator.validate s = (false, "Empty query") := by
  unfold SafetyValidator.validate
  rw [if_pos (Or.inr (pyStrip_eq_empty_of_all_ws h))]

/-- C5 witness: the amended theorem applied to the whitespace-only
statement of the spec's example. -/
theorem validate_whitespace_only_witness :
    SafetyValidator.validate ("   ") = (false, "Empty query") :=
  validate_whitespace_only ("   ") (by decide)

/-- C7: if the cancellation signal is already set at the pre-execution
check, the runner produces no output at all — no chunk, no done — and no
exception is raised. -/
theorem run_sql_streaming_precanceled {α : Type} (db : QueryRunner.DBConn α)
    (cancel : Nat → Bool) (batch_size : Nat)
    (hconn : db.is_connected = true) (hc : cancel 0 = true) :
    QueryRunner.run_sql_streaming db cancel batch_size = ⟨[], none⟩ := by
  unfold QueryRunner.run_sql_streaming
  rw [hconn, hc]
  simp

/-- C7 witness: a connected database with rows available, cancellation
requested before start: the full output is the empty sequence. -/
theorem run_sql_streaming_precanceled_witness :
    QueryRunner.run_sql_streaming
        (⟨true, Except.ok ⟨true, ["n"], [1, 2, 3], 0⟩, none⟩ : QueryRunner.DBConn Nat)
        (fun _ => true) 100
      = ⟨[], none⟩ :=
  run_sql_streaming_precanceled _ _ 100 rfl rfl

/-- C2: for an accepted statement over a connected database whose result
set has N rows, run with batch size B > 0 and no cancellation and no fetch
failure, `run_sql_streaming` yields exactly ceil(N/B) = (N + B - 1) / B
chunk elements whose per-chunk row counts sum to N, followed by exactly one
done element whose `totalRows` is N — the done element is last, so no chunk
appears after it — and no exception is raised. -/
theorem run_sql_streaming_chunk_stream {α : Type} (db : QueryRunner.DBConn α)
    (cancel : Nat → Bool) (B : Nat) (rs : QueryRunner.ResultSet α)
    (hconn : db.is_connected = true) (hc : ∀ n, cancel n = false)
    (hexec : db.execResult = Except.ok rs) (hrr : rs.returns_rows = true)
    (hff : db.fetchFail = none) (hB : 0 < B) :
    ∃ css : List (List α),
      (QueryRunner.run_sql_streaming db cancel B).emitted
          = css.map (QueryRunner.Msg.chunk rs.columns)
              ++ [QueryRunner.Msg.done (rs.rows.length : Int)]
        ∧ css.length = (rs.rows.length + B - 1) / B
        ∧ (css.map List.length).sum = rs.rows.length
        ∧ (QueryRunner.run_sql_streaming db cancel B).error = none := by
  have hrun : QueryRunner.run_sql_streaming db cancel B
      = ⟨(chunksOf B rs.rows).map (QueryRunner.Msg.chunk rs.columns)
            ++ [QueryRunner.Msg.done (rs.rows.length : Int)], none⟩ := by
    unfold QueryRunner.run_sql_streaming
    rw [hconn, hc 0]
    simp only [Bool.true_eq_false, if_false, Bool.false_eq_true, hexec]
    rw [hrr, hff]
    simp only [if_true]
    rw [fetchLoop_clean B hB cancel hc]
    simp
  rw [hrun]
  exact ⟨chunksOf B rs.rows, rfl, chunksOf_length B hB rs.rows, chunksOf_sum B hB rs.rows, rfl⟩

/-- C2 witness: three rows streamed with batch size 2 produce two chunks
of sizes 2 and 1 and one final done with totalRows = 3. -/
theorem run_sql_streaming_chunk_stream_witness :
    ∃ css : List (List Nat),
      (QueryRunner.run_sql_streaming
          (⟨true, Except.ok ⟨true, ["n"], [10, 20, 30], 0⟩, none⟩ : QueryRunner.DBConn Nat)
          (fun _ => false) 2).emitted
          = css.map (QueryRunner.Msg.chunk ["n"])
              ++ [QueryRunner.Msg.done (([10, 20, 30] : List Nat).length : Int)]
        ∧ css.length = (([10, 20, 30] : List Nat).length + 2 - 1) / 2
        ∧ (css.map List.length).sum = ([10, 20, 30] : List Nat).length
        ∧ (QueryRunner.run_sql_streaming
            (⟨true, Except.ok ⟨true, ["n"], [10, 20, 30], 0⟩, none⟩ : QueryRunner.DBConn Nat)
            (fun _ => false) 2).error = none :=
  run_sql_streaming_chunk_stream _ _ 2 ⟨true, ["n"], [10, 20, 30], 0⟩
    rfl (fun _ => rfl) rfl rfl rfl (by decide)

/-- C8: an exception raised while issuing the statement or fetching rows
propagates out of the runner and no done element is emitted on that path:
whenever the run ends in an error, no done element occurs among the
elements yielded, and when issuing the statement itself fails with `e` the
runner yields nothing and re-raises `e`. -/
theorem run_sql_streaming_error_propagates {α : Type} (db : QueryRunner.DBConn α)
    (cancel : Nat → Bool) (B : Nat) :
    ((QueryRunner.run_sql_streaming db cancel B).error.isSome = true →
        ∀ n : Int,
          QueryRunner.Msg.done n ∉ (QueryRunner.run_sql_streaming db cancel B).emitted)
    ∧ (db.is_connected = true → cancel 0 = false →
        ∀ e, db.execResult = Except.error e →
          QueryRunner.run_sql_streaming db cancel B = ⟨[], some e⟩) := by
  constructor
  · intro hsome n hmem
    unfold QueryRunner.run_sql_streaming at hsome hmem
    by_cases h1 : db.is_connected = false
    · rw [if_pos h1] at hmem
      simp at hmem
    · rw [if_neg h1] at hsome hmem
      by_cases h2 : cancel 0 = true
      · rw [if_pos h2] at hmem
        simp at hmem
      · rw [if_neg h2] at hsome hmem
        rcases hex : db.execResult with e | rs
        · rw [hex] at hmem
          simp at hmem
        · rw [hex] at hsome hmem
          simp only [] at hsome hmem
          by_cases hrr : rs.returns_rows = true
          · rw [if_pos hrr] at hsome hmem
            rcases hfe : (QueryRunner.fetchLoop B cancel db.fetchFail rs.columns 1 0 0 rs.rows).fetchError
              with _ | e
            · rw [hfe] at hsome
              simp at hsome
            · rw [hfe] at hmem
              exact fetchLoop_no_done B cancel db.fetchFail rs.columns rs.rows 1 0 0 n hmem
          · rw [if_neg hrr] at hsome
            simp at hsome
  · intro hconn hc e hex
    unfold QueryRunner.run_sql_streaming
    rw [hconn, hc, hex]
    simp

/-- C8 witness: a statement whose execution raises `boom` yields nothing
and propagates the error. -/
theorem run_sql_streaming_error_propagates_witness :
    QueryRunner.run_sql_streaming
        (⟨true, (Except.error ("boom") : Except String (QueryRunner.ResultSet Nat)), none⟩ :
          QueryRunner.DBConn Nat)
        (fun _ => false) 2
      = ⟨[], some ("boom")⟩ :=
  (run_sql_streaming_error_propagates _ _ 2).2 rfl rfl ("boom") rfl

/-- C9: over a connected engine, a failing statement in a multi-statement
SQL import is recorded as a warning and the loop continues: the result
reports `success = true`, its warnings list is the first 10 of the
collected warning messages (one per failed statement, so at most 10 are
reported), `warning_count` equals the total number of attempted statements
whose execution raised, and `statements_executed` counts all the attempted
statements that succeeded — including those after any failure. -/
theorem import_sql_collects_warnings (execStmt : String → Except String Unit)
    (content : String) :
    (ImportManager.import_sql true execStmt content).success = true
    ∧ (ImportManager.import_sql true execStmt content).warnings
        = (ImportManager.importErrors execStmt
            (ImportManager._parse_sql_statements content)).take 10
    ∧ (ImportManager.import_sql true execStmt content).warning_count
        = (ImportManager.importAttempted
            (ImportManager._parse_sql_statements content)).countP
              (ImportManager.execRaises execStmt)
    ∧ (ImportManager.import_sql true execStmt content).statements_executed
        = (ImportManager.importAttempted
            (ImportManager._parse_sql_statements content)).countP
              (fun s => !(ImportManager.execRaises execStmt s)) := by
  have hfold := importStep_foldl execStmt (ImportManager._parse_sql_statements content) 0 []
  have hrun : ImportManager.import_sql true execStmt content
      = ⟨true,
         (ImportManager.importAttempted
            (ImportManager._parse_sql_statements content)).countP
              (fun s => !(ImportManager.execRaises execStmt s)),
         "Successfully executed "
           ++ toString ((ImportManager.importAttempted
                (ImportManager._parse_sql_statements content)).countP
                  (fun s => !(ImportManager.execRaises execStmt s)))
           ++ " statements",
         none,
         (ImportManager.importErrors execStmt
            (ImportManager._parse_sql_statements content)).take 10,
         (ImportManager.importErrors execStmt
            (ImportManager._parse_sql_statements content)).length⟩ := by
    unfold ImportManager.import_sql
    rw [if_neg (by simp)]
    simp only [hfold]
    simp
  rw [hrun]
  refine ⟨rfl, rfl, ?_, rfl⟩
  exact importErrors_length execStmt (ImportManager._parse_sql_statements content)

/-- C10: every statement returned by the statement splitter is a non-empty
string; in particular, an input consisting only of blank lines and
line-comment lines yields an empty sequence of statements. -/
theorem parse_sql_statements_invariants :
    (∀ blob s : String, s ∈ ImportManager._parse_sql_statements blob → s ≠ "")
    ∧ (∀ blob : String,
        (∀ line ∈ pyLines blob,
          pyStrip line = "" ∨ pyStartsWith (pyStrip line) ("--")) →
        ImportManager._parse_sql_statements blob = []) := by
  constructor
  · intro blob s hs
    unfold ImportManager._parse_sql_statements at hs
    have hfin := foldl_lineStep_statements_ne (pyLines blob) ⟨[], [], false, none⟩ (by simp)
    simp only [ne_eq] at hs
    split at hs
    · split at hs
      · next hrem =>
        rcases List.mem_append.mp hs with h1 | h2
        · exact hfin s h1
        · rw [List.mem_singleton] at h2
          subst h2
          exact hrem
      · exact hfin s hs
    · exact hfin s hs
  · intro blob h
    unfold ImportManager._parse_sql_statements
    simp only [foldl_lineStep_skip (pyLines blob) h ⟨[], [], false, none⟩]
    simp

/-- C10 witness: the single statement split out of `SELECT 1;` is
non-empty, and a blob of one comment line and one blank line splits into no
statements. -/
theorem parse_sql_statements_invariants_witness :
    ("SELECT 1;" : String) ≠ ""
    ∧ ImportManager._parse_sql_statements ("-- note\n   ") = [] :=
  ⟨parse_sql_statements_invariants.1 ("SELECT 1;") ("SELECT 1;") (by decide),
   parse_sql_statements_invariants.2 ("-- note\n   ") (by decide)⟩

/-- C1 (counterexample): an inbound runQuery request carrying `DROP TABLE
users;` leads to `run_sql_streaming` being invoked on that exact statement
(main.py forwards the raw payload sql, lines 124-128 and 152-155), yet
`SafetyValidator.validate` returns `allowed = false` for it — the streaming
path has no safety gate. -/
theorem handle_run_query_unvalidated :
    ("DROP TABLE users;" ∈ Main.handle_run_query_runner_statements ("DROP TABLE users;"))
    ∧ (SafetyValidator.validate ("DROP TABLE users;")).1 = false := by decide

/-- C1 (amended): the websocket runQuery path forwards the inbound
statement to `run_sql_streaming` unchanged and without consulting
`SafetyValidator`; the validate-before-execute invariant holds on the
`QueryExecutor.execute_and_log` path instead, where every statement passed
to the database execution function has `validate` returning
`allowed = true`. -/
theorem safety_gate_holds_on_executor_path :
    (∀ sql : String, Main.handle_run_query_runner_statements sql = [sql])
    ∧ (∀ (α : Type) (dbExec : String → Except String (QueryExecutor.DBExecResult α))
        (detectMeta : String → Option String × List String) (sql_query question s : String),
        s ∈ (QueryExecutor.execute_and_log dbExec detectMeta sql_query question).dbCalls →
        (SafetyValidator.validate s).1 = true) := by
  refine ⟨fun _ => rfl, ?_⟩
  intro α dbExec detectMeta sql_query question s hs
  unfold QueryExecutor.execute_and_log at hs
  cases hv : (SafetyValidator.validate sql_query).1 with
  | false =>
    rw [if_pos hv] at hs
    simp at hs
  | true =>
    rw [if_neg (by rw [hv]; simp)] at hs
    have hsql : s = sql_query := by
      rcases hr : dbExec sql_query with e | r
      · rw [hr] at hs
        simpa using hs
      · rw [hr] at hs
        by_cases hsucc : r.success = true
        · simpa [hsucc] using hs
        · simpa [hsucc] using hs
    rw [hsql]
    exact hv

/-- C1 witness for the amended theorem: a validated statement that does
reach the database execution function on the executor path. -/
theorem safety_gate_holds_on_executor_path_witness :
    (SafetyValidator.validate ("SELECT 1")).1 = true :=
  safety_gate_holds_on_executor_path.2 Nat
    (fun _ => Except.ok ⟨true, ["c"], [1], 1, ""⟩) (fun _ => (none, []))
    ("SELECT 1") ("") ("SELECT 1") (by decide)

/-- C6: when the validator rejects a statement, `execute_and_log` returns a
failure dict synchronously whose error carries the rejection reason, logs
the attempt with status "blocked", and never invokes the database execution
function (`dbCalls = []`). -/
theorem execute_and_log_blocked {α : Type}
    (dbExec : String → Except String (QueryExecutor.DBExecResult α))
    (detectMeta : String → Option String × List String) (sql_query question : String)
    (h : (SafetyValidator.validate sql_query).1 = false) :
    QueryExecutor.execute_and_log dbExec detectMeta sql_query question =
      ⟨QueryExecutor.ExecResult.blocked
          ("Safety Warning: " ++ (SafetyValidator.validate sql_query).2),
       [⟨question, sql_query, "blocked", 0,
          some ("Safety Warning: " ++ (SafetyValidator.validate sql_query).2)⟩],
       []⟩ := by
  unfold QueryExecutor.execute_and_log
  rw [if_pos h]

/-- C6 witness: the blocked path at the statement `DROP TABLE users;`. -/
theorem execute_and_log_blocked_witness :
    QueryExecutor.execute_and_log
        (fun _ => Except.ok (⟨true, ["c"], [1], 1, ""⟩ : QueryExecutor.DBExecResult Nat))
        (fun _ => (none, [])) ("DROP TABLE users;") ("q") =
      ⟨QueryExecutor.ExecResult.blocked
          ("Safety Warning: " ++ (SafetyValidator.validate ("DROP TABLE users;")).2),
       [⟨("q"), ("DROP TABLE users;"), "blocked", 0,
          some ("Safety Warning: " ++ (SafetyValidator.validate ("DROP TABLE users;")).2)⟩],
       []⟩ :=
  execute_and_log_blocked _ _ ("DROP TABLE users;") ("q") (by decide)

end QueryPop
